import Mathlib

/-!
# Shallow embedding of `nautobot/extras/models/datasources.py` (`GitRepository`)

This file models the `GitRepository` Django model from
`src/nautobot/extras/models/datasources.py`: its `clean()` validation, the
`sync()` dispatch and the `clone()` operation, together with the persisted
set of repository rows (the database) as a list of records.

Conventions:
* The database is a `List GitRepository` of persisted rows.
* `present_in_database` and the `__initial_slug` captured in `__init__` are
  carried as fields of the in-memory instance (`presentInDatabase`,
  `initialSlug`), exactly as Django instance state does.
* `ValidationError` / `ValueError` / git exceptions become `Except` errors.
-/

/-- A `GitRepository` instance: the model fields of the Django class plus the
instance state (`present_in_database`, the `__initial_slug` stored in
`__init__`) that `clean()` consults.  `providedContents` is the JSON list
`provided_contents`; `id` is the primary key. -/
structure GitRepository where
  id : Nat
  name : String
  slug : String
  remoteUrl : String
  branch : String
  currentHead : String
  providedContents : List String
  presentInDatabase : Bool
  initialSlug : String
deriving Repr, DecidableEq

/-- Modelled from the spec: `slugify_dashes_to_underscores` is imported from
`nautobot.core.models.fields`, which is not under `src/`.  The spec (§4.1)
says the slug is derived deterministically from the name: lowercase, with
every non-alphanumeric character replaced by an underscore. -/
def slugifyDashesToUnderscores (name : String) : String :=
  String.mk (name.toList.map (fun c => if c.isAlphanum then c.toLower else '_'))

/-- The slug auto-generation step at the top of `clean()`: if `slug` is empty
it is populated from `name` (`create_slug` of the `AutoSlugField`). -/
def withAutoSlug (self : GitRepository) : GitRepository :=
  if self.slug = "" then { self with slug := slugifyDashesToUnderscores self.name }
  else self

/-- Modelled from the spec: `check_if_key_is_graphql_safe` is imported from
`nautobot.extras.utils`, which is not under `src/`.  The spec (§4.1) says the
slug must be safe as a query-language identifier: alphanumeric plus
underscore, and not starting with a digit. -/
def isGraphqlSafeSlug (s : String) : Bool :=
  (s != "") && s.toList.all (fun c => c.isAlphanum || c == '_') &&
    !(match s.toList with | [] => false | c :: _ => c.isDigit)

/-- The validation errors `clean()` can raise (each is a `ValidationError` in
the source; `recordNotFound` models `GitRepository.objects.get` raising when
the instance claims to be in the database but is not). -/
inductive CleanError where
  | slugChanged (current requested : String)
  | graphqlUnsafe (slug : String)
  | installedModule (slug : String)
  | contentOverlap (remoteUrl : String)
  | recordNotFound (id : Nat)
deriving Repr, DecidableEq

deriving instance DecidableEq for Except

/-- The duplicate query of `clean()`:
`GitRepository.objects.filter(remote_url=self.remote_url).exclude(id=self.id).filter(q)`
where `q` is the OR over `provided_contents__contains=item` for each item of
`self.provided_contents`.  A row matches when it has the same remote URL, a
different id, and shares at least one provided content item. -/
def overlapsWith (self r : GitRepository) : Bool :=
  r.remoteUrl == self.remoteUrl && r.id != self.id &&
    self.providedContents.any (fun item => r.providedContents.contains item)

/-- `GitRepository.clean()`.  `reserved` models `find_spec(self.slug) is not
None` (whether the slug collides with an installed Python module — an
environment fact, passed in as a predicate).  Steps, in source order:
slug auto-generation; slug-immutability check; on create, GraphQL-safety and
installed-module checks; content-overlap check; head invalidation when
`remote_url` or `branch` differs from the persisted row. -/
def clean (reserved : String → Bool) (db : List GitRepository)
    (self0 : GitRepository) : Except CleanError GitRepository :=
  let self := withAutoSlug self0
  if self.presentInDatabase && self.slug != self.initialSlug then
    .error (.slugChanged self.initialSlug self.slug)
  else if !self.presentInDatabase && !(isGraphqlSafeSlug self.slug) then
    .error (.graphqlUnsafe self.slug)
  else if !self.presentInDatabase && reserved self.slug then
    .error (.installedModule self.slug)
  else if !self.providedContents.isEmpty && db.any (overlapsWith self) then
    .error (.contentOverlap self.remoteUrl)
  else if self.presentInDatabase then
    match db.find? (fun r => r.id == self.id) with
    | none => .error (.recordNotFound self.id)
    | some past =>
        if self.remoteUrl != past.remoteUrl || self.branch != past.branch then
          .ok { self with currentHead := "" }
        else
          .ok self
  else
    .ok self

/-! ## `sync()` -/

/-- The two asynchronous task kinds dispatched by `GitRepository.sync()`. -/
inductive SyncTaskKind where
  | diffOnly
  | pullRefresh
deriving Repr, DecidableEq

/-- One enqueued background job: its task kind, the repository it references,
and the requesting user.  The returned `JobResult` handle is the job itself. -/
structure SyncJob where
  kind : SyncTaskKind
  repositoryId : Nat
  userId : Nat
deriving Repr, DecidableEq

/-- Modelled from the spec: `enqueue_git_repository_diff_origin_and_local` is
imported from `nautobot.extras.datasources`, which is not under `src/`.  Per
the spec it enqueues one diff-only (dry-run) asynchronous task referencing
the repository and returns the job handle immediately, performing no git
work itself. -/
def enqueueGitRepositoryDiffOriginAndLocal (queue : List SyncJob)
    (self : GitRepository) (user : Nat) : List SyncJob × SyncJob :=
  let job : SyncJob := { kind := .diffOnly, repositoryId := self.id, userId := user }
  (queue ++ [job], job)

/-- Modelled from the spec: `enqueue_pull_git_repository_and_refresh_data` is
imported from `nautobot.extras.datasources`, which is not under `src/`.  Per
the spec it enqueues one pull-and-refresh asynchronous task referencing the
repository and returns the job handle immediately, performing no git work
itself. -/
def enqueuePullGitRepositoryAndRefreshData (queue : List SyncJob)
    (self : GitRepository) (user : Nat) : List SyncJob × SyncJob :=
  let job : SyncJob := { kind := .pullRefresh, repositoryId := self.id, userId := user }
  (queue ++ [job], job)

/-- `GitRepository.sync(user, dry_run)`: dispatches to the diff-only enqueue
when `dry_run` is set, otherwise to the pull-and-refresh enqueue, and returns
the resulting job handle (together with the updated queue). -/
def sync (queue : List SyncJob) (self : GitRepository) (user : Nat)
    (dryRun : Bool) : List SyncJob × SyncJob :=
  if dryRun then enqueueGitRepositoryDiffOriginAndLocal queue self user
  else enqueuePullGitRepositoryAndRefreshData queue self user

/-! ## `clone()` -/

/-- The result of `GitRepo.checkout(branch, head)`: the resulting commit
hash and whether the local content changed. -/
structure CheckoutResult where
  head : String
  changed : Bool
deriving Repr, DecidableEq

/-- The failures `clone()` can surface: the `ValueError` raised when `head`
is supplied without `branch`, and any exception escaping the git helper
(`GitRepo(...)` / `checkout(...)`), re-raised after the compensating
delete. -/
inductive CloneError where
  | headWithoutBranch
  | gitFailure (msg : String)
deriving Repr, DecidableEq

/-- `delete()` of a saved row: removes the row with the given primary key
from the persisted set. -/
def deleteById (db : List GitRepository) (i : Nat) : List GitRepository :=
  db.filter (fun r => r.id != i)

/-- The shallow copy made at the start of `clone()`: `copy.copy(self)` with
`pk = None` (a fresh primary key `newId` is assigned on `save()`), and
`name`/`slug` extended by the freshly generated UUID.  All other fields —
`remote_url`, `branch`, `current_head`, `provided_contents` — are carried
over from the source record unchanged. -/
def cloneCopy (self : GitRepository) (genUuid : String) (newId : Nat) :
    GitRepository :=
  { self with
    id := newId
    name := self.name ++ " (" ++ genUuid ++ ")"
    slug := self.slug ++ "_" ++ genUuid
    presentInDatabase := true }

/-- `GitRepository.clone(branch, head)`.  `gitCheckout` stands for the git
helper (`GitRepo(to_path, from_url)` followed by `checkout(branch, head)`,
both inside the `try` block); `genUuid` is the freshly generated UUID and
`newId` the primary key assigned by `save()`.  Returns the persisted set
after the call together with the outcome.  Mirrors the source:
* neither argument: the local `branch`/`head` passed to checkout default to
  the copied record's values; the record keeps its copied fields;
* `branch` given: the copy's `branch` is overwritten, and `current_head`
  too when `head` is also given;
* `head` without `branch`: the copy is saved, deleted, and `ValueError`
  raised;
* a checkout failure deletes the saved copy and re-raises;
* on success the saved copy is returned — the commit hash produced by the
  checkout is assigned only to a local variable, never to the record. -/
def clone (db : List GitRepository) (self : GitRepository)
    (branchArg headArg : Option String) (genUuid : String) (newId : Nat)
    (gitCheckout : String → Option String → Except String CheckoutResult) :
    List GitRepository × Except CloneError GitRepository :=
  let cloned0 := cloneCopy self genUuid newId
  match branchArg, headArg with
  | none, none =>
      let db1 := db ++ [cloned0]
      match gitCheckout cloned0.branch (some cloned0.currentHead) with
      | .ok _ => (db1, .ok cloned0)
      | .error e => (deleteById db1 newId, .error (.gitFailure e))
  | some b, h =>
      let cloned := { cloned0 with
        branch := b
        currentHead := match h with | some hd => hd | none => cloned0.currentHead }
      let db1 := db ++ [cloned]
      match gitCheckout b h with
      | .ok _ => (db1, .ok cloned)
      | .error e => (deleteById db1 newId, .error (.gitFailure e))
  | none, some _ =>
      (deleteById (db ++ [cloned0]) newId, .error .headWithoutBranch)

/-- The no-overlap invariant over the persisted set (spec §3): no two
distinct records with the same `remote_url` declare overlapping
`provided_contents`.  `overlapsWith r s` is exactly the duplicate-query
match of `clean()`. -/
def overlapFree (db : List GitRepository) : Prop :=
  ∀ r ∈ db, ∀ s ∈ db, overlapsWith r s = false

/-- Whether a `clean()` outcome is the content-overlap `ValidationError`. -/
def isContentOverlapError : Except CleanError GitRepository → Bool
  | .error (.contentOverlap _) => true
  | _ => false

/-- Whether a `clean()` outcome is the slug-immutability `ValidationError`. -/
def isSlugChangedError : Except CleanError GitRepository → Bool
  | .error (.slugChanged _ _) => true
  | _ => false

/-! ## Concrete instances used to exercise the claims -/

/-- Record used to instantiate C3 at a concrete input. -/
def repoC3 : GitRepository :=
  { id := 1, name := "Configs", slug := "newslug",
    remoteUrl := "https://example.com/r.git", branch := "main",
    currentHead := "abc123", providedContents := [],
    presentInDatabase := true, initialSlug := "configs" }

/-- Persisted row used to instantiate C1 at a concrete input. -/
def repoC1db : GitRepository :=
  { id := 2, name := "Configs", slug := "configs",
    remoteUrl := "https://example.com/r.git", branch := "main",
    currentHead := "abc123", providedContents := ["config-contexts"],
    presentInDatabase := true, initialSlug := "configs" }

/-- The same record as `repoC1db` being updated to a different branch. -/
def repoC1self : GitRepository := { repoC1db with branch := "dev" }

/-- Persisted row used to instantiate C2 at a concrete input. -/
def repoC2db : GitRepository :=
  { id := 1, name := "Repo One", slug := "repo_one",
    remoteUrl := "https://example.com/r.git", branch := "main",
    currentHead := "", providedContents := ["jobs", "config-contexts"],
    presentInDatabase := true, initialSlug := "repo_one" }

/-- New candidate record used to instantiate C2: same remote URL as
`repoC2db` and a shared provided content item. -/
def repoC2self : GitRepository :=
  { id := 2, name := "Repo Two", slug := "repo_two",
    remoteUrl := "https://example.com/r.git", branch := "dev",
    currentHead := "", providedContents := ["jobs"],
    presentInDatabase := false, initialSlug := "" }

/-- Source record used to instantiate the clone claims (C4, C5, C6, C9). -/
def repoSrc : GitRepository :=
  { id := 1, name := "Configs", slug := "configs",
    remoteUrl := "https://example.com/r.git", branch := "main",
    currentHead := "oldhash", providedContents := ["config-contexts"],
    presentInDatabase := true, initialSlug := "configs" }

/-- A git helper that always fails (network error), used for C4. -/
def gitAlwaysFails : String → Option String → Except String CheckoutResult :=
  fun _ _ => .error "network error"

/-- A git helper that always checks out commit `newhash`, used for C5-C7, C9. -/
def gitReturnsNewhash : String → Option String → Except String CheckoutResult :=
  fun _ _ => .ok { head := "newhash", changed := true }

/-- Source record used for the C7 counterexample: its `current_head` is
`oldhash`, while the checkout produces `newhash`. -/
def repoC7 : GitRepository :=
  { id := 1, name := "Configs", slug := "configs",
    remoteUrl := "https://example.com/r.git", branch := "main",
    currentHead := "oldhash", providedContents := [],
    presentInDatabase := true, initialSlug := "configs" }

/-- The record returned by `clone(repoC7, branch="dev")` with the helper
`gitReturnsNewhash`: its `current_head` is still `oldhash`. -/
def clonedC7 : GitRepository :=
  { repoC7 with id := 7, name := "Configs (u)", slug := "configs_u", branch := "dev" }

/-- Record used to instantiate C10 at a concrete input. -/
def repoC10 : GitRepository :=
  { id := 3, name := "Repo Ten", slug := "repo_ten",
    remoteUrl := "https://example.com/ten.git", branch := "main",
    currentHead := "abc", providedContents := ["export-templates"],
    presentInDatabase := true, initialSlug := "repo_ten" }

/-! ## Helper lemmas -/

@[simp] theorem cloneCopy_id (s : GitRepository) (u : String) (n : Nat) :
    (cloneCopy s u n).id = n := rfl

@[simp] theorem cloneCopy_name (s : GitRepository) (u : String) (n : Nat) :
    (cloneCopy s u n).name = s.name ++ " (" ++ u ++ ")" := rfl

@[simp] theorem cloneCopy_slug (s : GitRepository) (u : String) (n : Nat) :
    (cloneCopy s u n).slug = s.slug ++ "_" ++ u := rfl

@[simp] theorem cloneCopy_remoteUrl (s : GitRepository) (u : String) (n : Nat) :
    (cloneCopy s u n).remoteUrl = s.remoteUrl := rfl

@[simp] theorem cloneCopy_branch (s : GitRepository) (u : String) (n : Nat) :
    (cloneCopy s u n).branch = s.branch := rfl

@[simp] theorem cloneCopy_currentHead (s : GitRepository) (u : String) (n : Nat) :
    (cloneCopy s u n).currentHead = s.currentHead := rfl

@[simp] theorem cloneCopy_providedContents (s : GitRepository) (u : String) (n : Nat) :
    (cloneCopy s u n).providedContents = s.providedContents := rfl

theorem deleteById_append_fresh (db : List GitRepository) (c : GitRepository)
    (newId : Nat) (hc : c.id = newId) (hfresh : ∀ r ∈ db, r.id ≠ newId) :
    deleteById (db ++ [c]) newId = db := by
  unfold deleteById
  rw [List.filter_append]
  have h1 : db.filter (fun r => r.id != newId) = db :=
    List.filter_eq_self.mpr (fun r hr => by simp [bne_iff_ne, hfresh r hr])
  have h2 : [c].filter (fun r => r.id != newId) = [] := by
    simp [hc]
  rw [h1, h2, List.append_nil]

theorem withAutoSlug_eq_self (s : GitRepository) (h : s.slug ≠ "") :
    withAutoSlug s = s := by
  unfold withAutoSlug
  simp [h]

@[simp] theorem withAutoSlug_id (s : GitRepository) :
    (withAutoSlug s).id = s.id := by
  unfold withAutoSlug; split <;> rfl

@[simp] theorem withAutoSlug_remoteUrl (s : GitRepository) :
    (withAutoSlug s).remoteUrl = s.remoteUrl := by
  unfold withAutoSlug; split <;> rfl

@[simp] theorem withAutoSlug_branch (s : GitRepository) :
    (withAutoSlug s).branch = s.branch := by
  unfold withAutoSlug; split <;> rfl

@[simp] theorem withAutoSlug_currentHead (s : GitRepository) :
    (withAutoSlug s).currentHead = s.currentHead := by
  unfold withAutoSlug; split <;> rfl

@[simp] theorem withAutoSlug_providedContents (s : GitRepository) :
    (withAutoSlug s).providedContents = s.providedContents := by
  unfold withAutoSlug; split <;> rfl

@[simp] theorem withAutoSlug_presentInDatabase (s : GitRepository) :
    (withAutoSlug s).presentInDatabase = s.presentInDatabase := by
  unfold withAutoSlug; split <;> rfl

@[simp] theorem withAutoSlug_initialSlug (s : GitRepository) :
    (withAutoSlug s).initialSlug = s.initialSlug := by
  unfold withAutoSlug; split <;> rfl

@[simp] theorem overlapsWith_withAutoSlug (s : GitRepository) :
    overlapsWith (withAutoSlug s) = overlapsWith s := by
  funext r
  unfold overlapsWith
  simp

theorem overlap_cond_iff (self : GitRepository) (db : List GitRepository) :
    (!(self.providedContents.isEmpty) && db.any (overlapsWith self)) = true ↔
      (self.providedContents ≠ [] ∧
       ∃ r ∈ db, r.remoteUrl = self.remoteUrl ∧ r.id ≠ self.id ∧
         ∃ item ∈ self.providedContents, item ∈ r.providedContents) := by
  unfold overlapsWith
  simp [List.any_eq_true, List.elem_iff, and_assoc]

/-! ## Claim theorems -/

/-- C2: Provided the validation steps preceding the overlap check pass (the
slug is unchanged when the record is persisted; the slug is GraphQL-safe and
not an installed module on create), `clean` fails with the content-overlap
`ValidationError` exactly when the candidate's `provided_contents` is
non-empty and some other persisted record (same `remote_url`, different id)
shares at least one provided content item; in particular with an empty
`provided_contents` the overlap check never fails. -/
theorem C2_content_overlap_iff (reserved : String → Bool) (db : List GitRepository)
    (self : GitRepository)
    (hslug : (self.presentInDatabase && (withAutoSlug self).slug != self.initialSlug)
       = false)
    (hcreate : self.presentInDatabase = false →
      isGraphqlSafeSlug (withAutoSlug self).slug = true ∧
      reserved (withAutoSlug self).slug = false) :
    isContentOverlapError (clean reserved db self) = true ↔
      (self.providedContents ≠ [] ∧
       ∃ r ∈ db, r.remoteUrl = self.remoteUrl ∧ r.id ≠ self.id ∧
         ∃ item ∈ self.providedContents, item ∈ r.providedContents) := by
  rw [← overlap_cond_iff self db]
  unfold clean
  simp only [withAutoSlug_presentInDatabase, withAutoSlug_initialSlug,
    withAutoSlug_providedContents, overlapsWith_withAutoSlug] at *
  rw [hslug]
  simp only [Bool.false_eq_true, if_false]
  cases hpres : self.presentInDatabase with
  | true =>
    simp only [hpres, Bool.not_true, Bool.false_and, Bool.false_eq_true, if_false]
    split
    · rename_i hcond
      simp only [isContentOverlapError]
      exact ⟨fun _ => hcond, fun _ => trivial⟩
    · rename_i hcond
      constructor
      · intro hc
        exfalso
        revert hc
        (try split) <;> (try split) <;> (try split) <;> simp [isContentOverlapError]
      · intro hc
        exact absurd hc hcond
  | false =>
    obtain ⟨hgql, hres⟩ := hcreate hpres
    simp only [hpres, Bool.not_false, Bool.true_and, hgql, Bool.not_true,
      Bool.false_eq_true, if_false, hres]
    split
    · rename_i hcond
      simp only [isContentOverlapError]
      exact ⟨fun _ => hcond, fun _ => trivial⟩
    · rename_i hcond
      constructor
      · intro hc
        exfalso
        revert hc
        (try split) <;> (try split) <;> (try split) <;> simp [isContentOverlapError]
      · intro hc
        exact absurd hc hcond

/-- C3: For every persisted record, validation (`clean`) of an update whose
(non-blank) slug differs from the slug the record had when it was loaded
fails with the slug-immutability `ValidationError`, and validation of an
update with the same slug never fails on that check. -/
theorem C3_slug_immutability (reserved : String → Bool) (db : List GitRepository)
    (self : GitRepository) (hpres : self.presentInDatabase = true)
    (hne : self.slug ≠ "") :
    (self.slug ≠ self.initialSlug →
      clean reserved db self = .error (.slugChanged self.initialSlug self.slug)) ∧
    (self.slug = self.initialSlug →
      isSlugChangedError (clean reserved db self) = false) := by
  unfold clean
  rw [withAutoSlug_eq_self self hne]
  constructor
  · intro hdiff
    simp [hpres, hdiff]
  · intro heq
    simp only [hpres, heq, bne_self_eq_false, Bool.and_false, Bool.false_eq_true,
      if_false, Bool.not_true, Bool.false_and, if_true]
    split
    · rfl
    · split
      · rfl
      · split <;> rfl

/-- C1: For every persisted record, when `clean` succeeds on an update whose
`remote_url` or `branch` differs from the persisted row, the validated
result has `current_head` cleared to the empty string; when neither differs,
`current_head` is left unchanged. -/
theorem C1_head_invalidation (reserved : String → Bool) (db : List GitRepository)
    (self past r' : GitRepository)
    (hpres : self.presentInDatabase = true)
    (hfind : db.find? (fun r => r.id == self.id) = some past)
    (hok : clean reserved db self = .ok r') :
    ((self.remoteUrl ≠ past.remoteUrl ∨ self.branch ≠ past.branch) →
      r'.currentHead = "") ∧
    (self.remoteUrl = past.remoteUrl → self.branch = past.branch →
      r'.currentHead = self.currentHead) := by
  unfold clean at hok
  simp only [withAutoSlug_id, withAutoSlug_presentInDatabase, withAutoSlug_remoteUrl,
    withAutoSlug_branch, withAutoSlug_initialSlug, withAutoSlug_providedContents,
    hpres, hfind, Bool.true_and, Bool.not_true, Bool.false_and, Bool.false_eq_true,
    if_false, if_true] at hok
  split at hok
  · simp at hok
  · split at hok
    · simp at hok
    · split at hok
      · rename_i hcond
        cases hok
        constructor
        · intro _
          rfl
        · intro h1 h2
          simp [h1, h2] at hcond
      · rename_i hcond
        simp only [bne_iff_ne, ne_eq, Bool.or_eq_true, not_or, Decidable.not_not] at hcond
        cases hok
        constructor
        · intro hor
          rcases hor with h | h
          · exact absurd hcond.1 h
          · exact absurd hcond.2 h
        · intro _ _
          exact withAutoSlug_currentHead self

theorem C3_slug_immutability_witness :
    repoC3.presentInDatabase = true ∧ repoC3.slug ≠ "" ∧
    ((repoC3.slug ≠ repoC3.initialSlug →
       clean (fun _ => false) [] repoC3
         = .error (.slugChanged repoC3.initialSlug repoC3.slug)) ∧
     (repoC3.slug = repoC3.initialSlug →
       isSlugChangedError (clean (fun _ => false) [] repoC3) = false)) :=
  ⟨rfl, by decide, C3_slug_immutability (fun _ => false) [] repoC3 rfl (by decide)⟩

/-- C4: If the checkout step inside `clone()` fails, the newly created
record is deleted before the error is re-signalled, so the persisted set
after the failed call equals the set before it — no record for that clone
attempt remains queryable. -/
theorem C4_failed_checkout_rollback (db : List GitRepository)
    (self : GitRepository) (branchArg headArg : Option String)
    (genUuid : String) (newId : Nat)
    (git : String → Option String → Except String CheckoutResult) (e : String)
    (hfresh : ∀ r ∈ db, r.id ≠ newId)
    (hfail : (clone db self branchArg headArg genUuid newId git).2
        = .error (.gitFailure e)) :
    (clone db self branchArg headArg genUuid newId git).1 = db := by
  cases branchArg with
  | none =>
    cases headArg with
    | none =>
      simp only [clone] at hfail ⊢
      cases hgit : git (cloneCopy self genUuid newId).branch
          (some (cloneCopy self genUuid newId).currentHead) with
      | ok r =>
        rw [hgit] at hfail
        simp at hfail
      | error e' =>
        exact deleteById_append_fresh db _ newId rfl hfresh
    | some h =>
      simp only [clone] at hfail
      simp at hfail
  | some b =>
    simp only [clone] at hfail ⊢
    cases hgit : git b headArg with
    | ok r =>
      rw [hgit] at hfail
      simp at hfail
    | error e' =>
      exact deleteById_append_fresh db _ newId rfl hfresh

theorem C4_failed_checkout_rollback_witness :
    (∀ r ∈ [repoSrc], r.id ≠ 99) ∧
    (clone [repoSrc] repoSrc none none "u" 99 gitAlwaysFails).2
        = .error (.gitFailure "network error") ∧
    (clone [repoSrc] repoSrc none none "u" 99 gitAlwaysFails).1 = [repoSrc] :=
  ⟨by decide, by decide,
   C4_failed_checkout_rollback [repoSrc] repoSrc none none "u" 99 gitAlwaysFails
     "network error" (by decide) (by decide)⟩

/-- C5: `clone` with a `head` argument but no `branch` argument fails with
the `ValueError` and leaves the persisted set exactly as it was before the
call (the record is saved and immediately deleted). -/
theorem C5_head_without_branch (db : List GitRepository) (self : GitRepository)
    (h genUuid : String) (newId : Nat)
    (git : String → Option String → Except String CheckoutResult)
    (hfresh : ∀ r ∈ db, r.id ≠ newId) :
    clone db self none (some h) genUuid newId git
      = (db, .error .headWithoutBranch) := by
  simp only [clone]
  rw [deleteById_append_fresh db _ newId rfl hfresh]

theorem C5_head_without_branch_witness :
    (∀ r ∈ [repoSrc], r.id ≠ 99) ∧
    clone [repoSrc] repoSrc none (some "abc123") "u" 99 gitReturnsNewhash
      = ([repoSrc], .error .headWithoutBranch) :=
  ⟨by decide,
   C5_head_without_branch [repoSrc] repoSrc "abc123" "u" 99 gitReturnsNewhash
     (by decide)⟩

/-- C6: `clone` with neither `branch` nor `head` persists and returns a
record whose `branch` and `current_head` equal the source's values at call
time, and whose `name` and `slug` are the source's extended by the freshly
generated identifier suffix — in particular distinct from the source's. -/
theorem C6_clone_defaults (db : List GitRepository) (self : GitRepository)
    (genUuid : String) (newId : Nat)
    (git : String → Option String → Except String CheckoutResult)
    (res : CheckoutResult)
    (hgit : git self.branch (some self.currentHead) = .ok res) :
    clone db self none none genUuid newId git
        = (db ++ [cloneCopy self genUuid newId], .ok (cloneCopy self genUuid newId)) ∧
    (cloneCopy self genUuid newId).branch = self.branch ∧
    (cloneCopy self genUuid newId).currentHead = self.currentHead ∧
    (cloneCopy self genUuid newId).name = self.name ++ " (" ++ genUuid ++ ")" ∧
    (cloneCopy self genUuid newId).slug = self.slug ++ "_" ++ genUuid ∧
    (cloneCopy self genUuid newId).name ≠ self.name ∧
    (cloneCopy self genUuid newId).slug ≠ self.slug := by
  refine ⟨?_, rfl, rfl, rfl, rfl, ?_, ?_⟩
  · simp only [clone, cloneCopy_branch, cloneCopy_currentHead]
    rw [hgit]
  · intro hEq
    have hlen := congrArg String.length hEq
    simp only [cloneCopy_name, String.length_append] at hlen
    have h2 : (" (" : String).length = 2 := rfl
    have h3 : ((")" : String)).length = 1 := rfl
    rw [h2, h3] at hlen
    omega
  · intro hEq
    have hlen := congrArg String.length hEq
    simp only [cloneCopy_slug, String.length_append] at hlen
    have h4 : (("_" : String)).length = 1 := rfl
    rw [h4] at hlen
    omega

theorem C6_clone_defaults_witness :
    gitReturnsNewhash repoSrc.branch (some repoSrc.currentHead)
        = .ok { head := "newhash", changed := true } ∧
    (clone [repoSrc] repoSrc none none "u" 99 gitReturnsNewhash
        = ([repoSrc] ++ [cloneCopy repoSrc "u" 99], .ok (cloneCopy repoSrc "u" 99)) ∧
     (cloneCopy repoSrc "u" 99).branch = repoSrc.branch ∧
     (cloneCopy repoSrc "u" 99).currentHead = repoSrc.currentHead ∧
     (cloneCopy repoSrc "u" 99).name = repoSrc.name ++ " (" ++ "u" ++ ")" ∧
     (cloneCopy repoSrc "u" 99).slug = repoSrc.slug ++ "_" ++ "u" ∧
     (cloneCopy repoSrc "u" 99).name ≠ repoSrc.name ∧
     (cloneCopy repoSrc "u" 99).slug ≠ repoSrc.slug) :=
  ⟨rfl,
   C6_clone_defaults [repoSrc] repoSrc "u" 99 gitReturnsNewhash
     { head := "newhash", changed := true } rfl⟩

/-- C7 counterexample: the claim "the returned record's `current_head`
equals the commit the checkout produced" is false.  A successful
`clone(record, branch="dev")` whose checkout produces commit `newhash`
persists and returns a record whose `current_head` is still `oldhash`: the
checkout's result is assigned only to a local variable in the source. -/
theorem C7_counterexample :
    clone [] repoC7 (some "dev") none "u" 7 gitReturnsNewhash
        = ([clonedC7], .ok clonedC7) ∧
    gitReturnsNewhash "dev" none = .ok { head := "newhash", changed := true } ∧
    clonedC7.currentHead = "oldhash" ∧
    clonedC7.currentHead ≠ "newhash" := by
  refine ⟨by decide, rfl, rfl, by decide⟩

/-- C7 (amended): for every successful `clone`, the returned record is
persisted, and its `current_head` is the value fixed before the checkout
runs — the supplied `head` when both `branch` and `head` are given, the
source record's `current_head` otherwise — not necessarily the commit the
checkout produced. -/
theorem C7_amended_head_policy (db : List GitRepository) (self : GitRepository)
    (branchArg headArg : Option String) (genUuid : String) (newId : Nat)
    (git : String → Option String → Except String CheckoutResult)
    (c : GitRepository)
    (hok : (clone db self branchArg headArg genUuid newId git).2 = .ok c) :
    c ∈ (clone db self branchArg headArg genUuid newId git).1 ∧
    c.currentHead = (match branchArg, headArg with
      | some _, some hd => hd
      | _, _ => self.currentHead) := by
  cases branchArg with
  | none =>
    cases headArg with
    | none =>
      simp only [clone] at hok ⊢
      cases hgit : git (cloneCopy self genUuid newId).branch
          (some (cloneCopy self genUuid newId).currentHead) with
      | ok r =>
        rw [hgit] at hok
        simp only [Except.ok.injEq] at hok
        subst hok
        exact ⟨by simp, rfl⟩
      | error e' =>
        rw [hgit] at hok
        simp at hok
    | some h =>
      simp only [clone] at hok
      simp at hok
  | some b =>
    cases headArg with
    | none =>
      simp only [clone] at hok ⊢
      cases hgit : git b none with
      | ok r =>
        rw [hgit] at hok
        simp only [Except.ok.injEq] at hok
        subst hok
        exact ⟨by simp, rfl⟩
      | error e' =>
        rw [hgit] at hok
        simp at hok
    | some hd =>
      simp only [clone] at hok ⊢
      cases hgit : git b (some hd) with
      | ok r =>
        rw [hgit] at hok
        simp only [Except.ok.injEq] at hok
        subst hok
        exact ⟨by simp, rfl⟩
      | error e' =>
        rw [hgit] at hok
        simp at hok

theorem C7_amended_head_policy_witness :
    (clone [] repoC7 (some "dev") none "u" 7 gitReturnsNewhash).2 = .ok clonedC7 ∧
    (clonedC7 ∈ (clone [] repoC7 (some "dev") none "u" 7 gitReturnsNewhash).1 ∧
     clonedC7.currentHead = repoC7.currentHead) :=
  ⟨by decide,
   C7_amended_head_policy [] repoC7 (some "dev") none "u" 7 gitReturnsNewhash
     clonedC7 (by decide)⟩

/-- C8: `sync` enqueues exactly one asynchronous task — appended to the same
queue in both cases — whose kind is the diff-only task when `dry_run` is
true and the pull-and-refresh task when false, referencing the repository
and requesting user, and returns that job as the handle; the choice of task
kind depends on the `dry_run` flag only. -/
theorem C8_sync_dispatch (queue : List SyncJob) (self : GitRepository)
    (user : Nat) (dryRun : Bool) :
    (sync queue self user dryRun).1
        = queue ++ [(sync queue self user dryRun).2] ∧
    (sync queue self user dryRun).2.kind
        = (if dryRun then SyncTaskKind.diffOnly else SyncTaskKind.pullRefresh) ∧
    (sync queue self user dryRun).2.repositoryId = self.id ∧
    (sync queue self user dryRun).2.userId = user := by
  cases dryRun <;>
    simp [sync, enqueueGitRepositoryDiffOriginAndLocal,
      enqueuePullGitRepositoryAndRefreshData]

/-- C9: A successful parameterless `clone` persists a record with the same
`remote_url` and the same `provided_contents` as its source, bypassing
validation, so when the source's `provided_contents` is non-empty the
persisted set afterwards contains two records violating the no-overlap
invariant. -/
theorem C9_clone_breaks_overlap_invariant (db : List GitRepository)
    (self : GitRepository) (genUuid : String) (newId : Nat)
    (git : String → Option String → Except String CheckoutResult)
    (res : CheckoutResult)
    (hmem : self ∈ db) (hnonempty : self.providedContents ≠ [])
    (hgit : git self.branch (some self.currentHead) = .ok res)
    (hid : self.id ≠ newId) :
    (clone db self none none genUuid newId git).2
        = .ok (cloneCopy self genUuid newId) ∧
    (cloneCopy self genUuid newId).remoteUrl = self.remoteUrl ∧
    (cloneCopy self genUuid newId).providedContents = self.providedContents ∧
    cloneCopy self genUuid newId ∈ (clone db self none none genUuid newId git).1 ∧
    self ∈ (clone db self none none genUuid newId git).1 ∧
    ¬ overlapFree (clone db self none none genUuid newId git).1 := by
  have hclone : clone db self none none genUuid newId git
      = (db ++ [cloneCopy self genUuid newId], .ok (cloneCopy self genUuid newId)) := by
    simp only [clone, cloneCopy_branch, cloneCopy_currentHead]
    rw [hgit]
  rw [hclone]
  have htrue : overlapsWith self (cloneCopy self genUuid newId) = true := by
    obtain ⟨x, hx⟩ := List.exists_mem_of_ne_nil _ hnonempty
    simp [overlapsWith, bne_iff_ne, Ne.symm hid, List.any_eq_true, List.elem_iff]
    exact ⟨x, hx⟩
  refine ⟨rfl, rfl, rfl, by simp, List.mem_append_left _ hmem, ?_⟩
  intro hfree
  have hfalse := hfree self (List.mem_append_left _ hmem)
      (cloneCopy self genUuid newId) (by simp)
  rw [htrue] at hfalse
  exact Bool.noConfusion hfalse

theorem C9_clone_breaks_overlap_invariant_witness :
    repoSrc ∈ [repoSrc] ∧ repoSrc.providedContents ≠ [] ∧
    gitReturnsNewhash repoSrc.branch (some repoSrc.currentHead)
        = .ok { head := "newhash", changed := true } ∧
    repoSrc.id ≠ 99 ∧
    ((clone [repoSrc] repoSrc none none "u" 99 gitReturnsNewhash).2
        = .ok (cloneCopy repoSrc "u" 99) ∧
     (cloneCopy repoSrc "u" 99).remoteUrl = repoSrc.remoteUrl ∧
     (cloneCopy repoSrc "u" 99).providedContents = repoSrc.providedContents ∧
     cloneCopy repoSrc "u" 99
        ∈ (clone [repoSrc] repoSrc none none "u" 99 gitReturnsNewhash).1 ∧
     repoSrc ∈ (clone [repoSrc] repoSrc none none "u" 99 gitReturnsNewhash).1 ∧
     ¬ overlapFree (clone [repoSrc] repoSrc none none "u" 99 gitReturnsNewhash).1) :=
  ⟨by decide, by decide, rfl, by decide,
   C9_clone_breaks_overlap_invariant [repoSrc] repoSrc "u" 99 gitReturnsNewhash
     { head := "newhash", changed := true } (by decide) (by decide) rfl (by decide)⟩

/-- C10: The overlap check excludes the record's own id, so re-running
`clean` on a persisted record unchanged — when no other record with the
same `remote_url` shares a content kind with it — succeeds outright, and in
particular never fails with the content-overlap error: a record never
conflicts with itself. -/
theorem C10_no_self_conflict (reserved : String → Bool) (db : List GitRepository)
    (self : GitRepository)
    (hpres : self.presentInDatabase = true)
    (hslug : self.slug = self.initialSlug)
    (hne : self.slug ≠ "")
    (hfind : db.find? (fun r => r.id == self.id) = some self)
    (hnoconf : ∀ r ∈ db, overlapsWith self r = false) :
    clean reserved db self = .ok self := by
  unfold clean
  rw [withAutoSlug_eq_self self hne]
  have hany : db.any (overlapsWith self) = false := by
    rw [List.any_eq_false]
    intro r hr
    simp [hnoconf r hr]
  simp [hpres, hslug, hany, hfind]

theorem C10_no_self_conflict_witness :
    repoC10.presentInDatabase = true ∧ repoC10.slug = repoC10.initialSlug ∧
    repoC10.slug ≠ "" ∧
    List.find? (fun r => r.id == repoC10.id) [repoC10] = some repoC10 ∧
    (∀ r ∈ [repoC10], overlapsWith repoC10 r = false) ∧
    clean (fun _ => false) [repoC10] repoC10 = .ok repoC10 :=
  ⟨rfl, rfl, by decide, by decide, by decide,
   C10_no_self_conflict (fun _ => false) [repoC10] repoC10 rfl rfl (by decide)
     (by decide) (by decide)⟩

theorem C1_head_invalidation_witness :
    repoC1self.presentInDatabase = true ∧
    List.find? (fun r => r.id == repoC1self.id) [repoC1db] = some repoC1db ∧
    clean (fun _ => false) [repoC1db] repoC1self
        = .ok { repoC1self with currentHead := "" } ∧
    (((repoC1self.remoteUrl ≠ repoC1db.remoteUrl ∨ repoC1self.branch ≠ repoC1db.branch) →
        ({ repoC1self with currentHead := "" } : GitRepository).currentHead = "") ∧
     (repoC1self.remoteUrl = repoC1db.remoteUrl → repoC1self.branch = repoC1db.branch →
        ({ repoC1self with currentHead := "" } : GitRepository).currentHead
          = repoC1self.currentHead)) :=
  ⟨rfl, by decide, by decide,
   C1_head_invalidation (fun _ => false) [repoC1db] repoC1self repoC1db
     { repoC1self with currentHead := "" } rfl (by decide) (by decide)⟩

theorem C2_content_overlap_iff_witness :
    (repoC2self.presentInDatabase
        && (withAutoSlug repoC2self).slug != repoC2self.initialSlug) = false ∧
    (repoC2self.presentInDatabase = false →
      isGraphqlSafeSlug (withAutoSlug repoC2self).slug = true ∧
      (fun _ : String => false) (withAutoSlug repoC2self).slug = false) ∧
    (isContentOverlapError (clean (fun _ => false) [repoC2db] repoC2self) = true ↔
      (repoC2self.providedContents ≠ [] ∧
       ∃ r ∈ [repoC2db], r.remoteUrl = repoC2self.remoteUrl ∧ r.id ≠ repoC2self.id ∧
         ∃ item ∈ repoC2self.providedContents, item ∈ r.providedContents)) :=
  ⟨by decide, by decide,
   C2_content_overlap_iff (fun _ => false) [repoC2db] repoC2self (by decide)
     (by decide)⟩
